import Mathlib

/-!
Verification of the cost/usage accounting and spend-limit enforcement
subsystem of RA.Aid (`ra_aid/callbacks/default_callback_handler.py`).

Shallow embedding conventions:
* Python `Decimal` values (cost rates, accumulated costs) are embedded as `ℚ`.
  The source sets a 16-significant-digit decimal context; rational arithmetic
  models the exact decimal arithmetic the subsystem performs at the
  magnitudes it handles.
* Python floats used for configuration limits and durations are embedded
  as `ℚ` (every float is a rational); the comparison
  `float(current_cost) >= max_cost` is embedded as the exact comparison on `ℚ`.
* `int(total * 0.9)` on a nonnegative integer `total` is embedded as
  `total * 9 / 10` in natural-number arithmetic, which is the value the
  float expression produces for all totals in the representable range.
* The external collaborators (config repository, session repository,
  trajectory repository, the litellm pricing lookup, the interactive
  confirmation prompt) are passed in as explicit parameters; persistence
  and process exit are reported in a `StepOutcome` record rather than
  performed.
-/

namespace RaAid

/-- Tiered pricing record, mirroring the five keys of a tiered `MODEL_COSTS`
entry (`input_under_200k`, `input_over_200k`, `output_under_200k`,
`output_over_200k`, `tier_threshold`). -/
structure TieredCosts where
  input_under_200k : ℚ
  input_over_200k : ℚ
  output_under_200k : ℚ
  output_over_200k : ℚ
  tier_threshold : ℕ
  deriving Repr, DecidableEq

/-- A `MODEL_COSTS` entry: either flat `input`/`output` rates or a tiered
record. -/
inductive CostEntry where
  | flat (input output : ℚ)
  | tiered (tc : TieredCosts)
  deriving Repr, DecidableEq

/-- The tiered Gemini pricing record shared by all tiered entries of
`MODEL_COSTS`. -/
def geminiTiered : TieredCosts :=
  { input_under_200k := 0.00000125
    input_over_200k := 0.00000250
    output_under_200k := 0.00001000
    output_over_200k := 0.00001500
    tier_threshold := 200000 }

/-- The static `MODEL_COSTS` table of `default_callback_handler.py`. -/
def MODEL_COSTS : String → Option CostEntry
  | "claude-3-7-sonnet-20250219" => some (.flat 0.000003 0.000015)
  | "claude-3-opus-20240229" => some (.flat 0.000015 0.000075)
  | "claude-3-sonnet-20240229" => some (.flat 0.000003 0.000015)
  | "claude-3-haiku-20240307" => some (.flat 0.00000025 0.00000125)
  | "claude-2" => some (.flat 0.00001102 0.00003268)
  | "claude-instant-1" => some (.flat 0.00000163 0.00000551)
  | "google/gemini-2.5-pro-exp-03-25:free" => some (.flat 0 0)
  | "google/gemini-2.5-pro-exp-03-25" => some (.tiered geminiTiered)
  | "gemini-2.5-pro-exp-03-25" => some (.tiered geminiTiered)
  | "google/gemini-2.5-pro-preview-03-25" => some (.tiered geminiTiered)
  | "gemini-2.5-pro-preview-03-25" => some (.tiered geminiTiered)
  | "google/gemini-2.5-pro-preview-05-06" => some (.tiered geminiTiered)
  | "gemini-2.5-pro-preview-05-06" => some (.tiered geminiTiered)
  | "deepseek/deepseek-chat-v3-0324" => some (.flat 0.00000027 0.0000011)
  | "weaver-ai" => some (.flat 0.001875 0.00225)
  | "airoboros-v1" => some (.flat 0.0005 0.0005)
  | "mistral-nemo" => some (.flat 0.00015 0.00015)
  | "pixtral-12b" => some (.flat 0.00015 0.00015)
  | "mistral-large-24b11" => some (.flat 0.002 0.006)
  | "mistralai/mistral-small-3.1-24b-instruct" => some (.flat 0.0001 0.0003)
  | "anthropic/claude-sonnet-4" => some (.flat 0.000003 0.000015)
  | _ => none

/-- The `session_totals` dictionary of the handler. -/
structure SessionTotals where
  cost : ℚ
  tokens : ℕ
  input_tokens : ℕ
  output_tokens : ℕ
  session_id : Option ℕ
  duration : ℚ
  deriving Repr, DecidableEq

/-- The mutable accounting state of `DefaultCallbackHandler`: last-call
counters, lifetime counters, cost rates, the remembered user decision
(`_cost_limit_user_decision_continue`) and the session totals. -/
structure HandlerState where
  total_tokens : ℕ
  prompt_tokens : ℕ
  completion_tokens : ℕ
  successful_requests : ℕ
  total_cost : ℚ
  model_name : String
  cumulative_total_tokens : ℕ
  cumulative_prompt_tokens : ℕ
  cumulative_completion_tokens : ℕ
  input_cost_per_token : ℚ
  output_cost_per_token : ℚ
  tiered_costs : Option TieredCosts
  cost_limit_user_decision_continue : Option Bool
  session_totals : SessionTotals
  deriving Repr, DecidableEq

/-- The state right after `_initialize`/`__post_init__` with the pricing
lookup not yet applied: every counter zero, no tiered costs, no remembered
decision, the given model name and session id. -/
def initial_state (model_name : String) (session_id : Option ℕ) : HandlerState :=
  { total_tokens := 0
    prompt_tokens := 0
    completion_tokens := 0
    successful_requests := 0
    total_cost := 0
    model_name := model_name
    cumulative_total_tokens := 0
    cumulative_prompt_tokens := 0
    cumulative_completion_tokens := 0
    input_cost_per_token := 0
    output_cost_per_token := 0
    tiered_costs := none
    cost_limit_user_decision_continue := none
    session_totals :=
      { cost := 0, tokens := 0, input_tokens := 0, output_tokens := 0
        session_id := session_id, duration := 0 } }

/-- The `MODEL_COSTS` fallback branch of `_initialize_model_costs`: a tiered
entry stores the tiered record and the under-threshold rates, a flat entry
stores its rates, a missing entry defaults both rates to zero. -/
def fallback_model_costs (s : HandlerState) : HandlerState :=
  match MODEL_COSTS s.model_name with
  | some (.tiered tc) =>
      { s with input_cost_per_token := tc.input_under_200k
               output_cost_per_token := tc.output_under_200k
               tiered_costs := some tc }
  | some (.flat i o) =>
      { s with input_cost_per_token := i
               output_cost_per_token := o
               tiered_costs := none }
  | none =>
      { s with input_cost_per_token := 0
               output_cost_per_token := 0
               tiered_costs := none }

/-- `_initialize_model_costs`: `litellm` is the result of the external
pricing lookup (`none` when the lookup raised or returned nothing). When the
lookup yields rates that are both nonzero they are used as flat rates and the
static table is not consulted; otherwise the `MODEL_COSTS` fallback runs
(overwriting any rates the lookup may have stored). -/
def init_model_costs (litellm : Option (ℚ × ℚ)) (s : HandlerState) : HandlerState :=
  match litellm with
  | some (ic, oc) =>
      if ic ≠ 0 ∧ oc ≠ 0 then
        { s with input_cost_per_token := ic, output_cost_per_token := oc }
      else
        fallback_model_costs
          { s with input_cost_per_token := ic, output_cost_per_token := oc }
  | none => fallback_model_costs s

/-- A freshly constructed handler for `model_name`: `_initialize` followed by
`_initialize_model_costs` with the given pricing-lookup result and current
session id. -/
def make_handler (model_name : String) (litellm : Option (ℚ × ℚ))
    (session_id : Option ℕ) : HandlerState :=
  init_model_costs litellm (initial_state model_name session_id)

/-- `_get_tiered_cost_rates`: the rate pair for a call with the given
prompt-token count — over-threshold rates when the count strictly exceeds the
threshold, under-threshold rates otherwise; the flat per-token rates when the
model has no tiered costs. -/
def get_tiered_cost_rates (s : HandlerState) (prompt_tokens : ℕ) : ℚ × ℚ :=
  match s.tiered_costs with
  | some tc =>
      if prompt_tokens > tc.tier_threshold then
        (tc.input_over_200k, tc.output_over_200k)
      else
        (tc.input_under_200k, tc.output_under_200k)
  | none => (s.input_cost_per_token, s.output_cost_per_token)

/-- The token-usage dictionary produced by `_extract_token_usage`: each key
may be present or absent. -/
structure TokenUsage where
  prompt_tokens : Option ℕ
  completion_tokens : Option ℕ
  total_tokens : Option ℕ
  deriving Repr, DecidableEq

/-- The effective `(prompt, completion, total)` triple that
`_update_token_counts` accumulates: missing keys default to zero, a missing
total defaults to prompt + completion, and a positive total with zero prompt
and completion is split 90/10 (`int(total * 0.9)` embedded as `total * 9 / 10`). -/
def effective_counts (tu : TokenUsage) : ℕ × ℕ × ℕ :=
  let p := tu.prompt_tokens.getD 0
  let c := tu.completion_tokens.getD 0
  let t := tu.total_tokens.getD (p + c)
  if 0 < t ∧ p = 0 ∧ c = 0 then (t * 9 / 10, t - t * 9 / 10, t)
  else (p, c, t)

/-- The limit-relevant configuration read from the config repository:
`max_cost` (a float or `None`), `max_tokens` (an int or `None`) and
`exit_at_limit`. -/
structure LimitConfig where
  max_cost : Option ℚ
  max_tokens : Option ℤ
  exit_at_limit : Bool
  deriving Repr, DecidableEq

/-- Which limit was breached. -/
inductive LimitType where
  | cost
  | tokens
  deriving Repr, DecidableEq

/-- The tuple `_check_limits` returns on a breach:
`(limit_type, current_value, limit_value, exit_at_limit)`. -/
structure LimitInfo where
  limit_type : LimitType
  current_value : ℚ
  limit_value : ℚ
  exit_at_limit : Bool
  deriving Repr, DecidableEq

/-- The cost clause of `_check_limits`: a breach when `max_cost` is
configured, strictly positive, and the session cost has reached it. -/
def cost_limit_check (c : LimitConfig) (st : SessionTotals) : Option LimitInfo :=
  match c.max_cost with
  | some mc =>
      if 0 < mc ∧ mc ≤ st.cost then
        some { limit_type := .cost, current_value := st.cost,
               limit_value := mc, exit_at_limit := c.exit_at_limit }
      else none
  | none => none

/-- The token clause of `_check_limits`: a breach when `max_tokens` is
configured, strictly positive, and the session token count has reached it. -/
def token_limit_check (c : LimitConfig) (st : SessionTotals) : Option LimitInfo :=
  match c.max_tokens with
  | some mt =>
      if 0 < mt ∧ mt ≤ (st.tokens : ℤ) then
        some { limit_type := .tokens, current_value := (st.tokens : ℚ),
               limit_value := (mt : ℚ), exit_at_limit := c.exit_at_limit }
      else none
  | none => none

/-- `_check_limits`: `none` when there is no config repository; otherwise the
cost clause is evaluated first and the token clause only when the cost clause
reports nothing. -/
def check_limits (cfg : Option LimitConfig) (st : SessionTotals) : Option LimitInfo :=
  match cfg with
  | none => none
  | some c =>
      match cost_limit_check c st with
      | some li => some li
      | none => token_limit_check c st

/-- The accumulation prefix of `_update_token_counts`, performed under the
lock before the limit check: cumulative counters grow by the effective
counts, last-call counters are overwritten, the call cost (at the tiered
rates for this call's prompt count) is added to the lifetime and session
costs, the request counter is incremented, and the session token counters
and duration grow. -/
def accumulate (tu : TokenUsage) (duration : ℚ) (s : HandlerState) : HandlerState :=
  let p := (effective_counts tu).1
  let c := (effective_counts tu).2.1
  let t := (effective_counts tu).2.2
  let rates := get_tiered_cost_rates s p
  let cost := (p : ℚ) * rates.1 + (c : ℚ) * rates.2
  { s with
    cumulative_prompt_tokens := s.cumulative_prompt_tokens + p
    cumulative_completion_tokens := s.cumulative_completion_tokens + c
    cumulative_total_tokens := s.cumulative_total_tokens + t
    prompt_tokens := p
    completion_tokens := c
    total_tokens := t
    total_cost := s.total_cost + cost
    successful_requests := s.successful_requests + 1
    session_totals :=
      { s.session_totals with
        cost := s.session_totals.cost + cost
        tokens := s.session_totals.tokens + t
        input_tokens := s.session_totals.input_tokens + p
        output_tokens := s.session_totals.output_tokens + c
        duration := s.session_totals.duration + duration } }

/-- The externally observable effects of one `_update_token_counts` call:
whether a `limit_reached` trajectory event was recorded (and its payload),
whether the interactive confirmation prompt was invoked, whether `sys.exit`
was called (and with which code), and whether the `model_usage` persistence
call (`_handle_callback_update`) ran. -/
structure StepOutcome where
  limit_recorded : Option LimitInfo
  prompted : Bool
  exited : Option ℕ
  usage_persisted : Bool
  deriving Repr, DecidableEq

/-- `_update_token_counts`: accumulate, check limits, then resolve a breach
against the remembered user decision, the `exit_at_limit` policy, or an
interactive prompt (whose answer is the `user_answer` parameter). Returns the
updated state together with the step's outcome. -/
def update_token_counts (cfg : Option LimitConfig) (user_answer : Bool)
    (tu : TokenUsage) (duration : ℚ) (s : HandlerState) :
    HandlerState × StepOutcome :=
  let s1 := accumulate tu duration s
  match check_limits cfg s1.session_totals with
  | none =>
      (s1, { limit_recorded := none, prompted := false, exited := none,
             usage_persisted := true })
  | some li =>
      match s1.cost_limit_user_decision_continue with
      | some true =>
          (s1, { limit_recorded := some li, prompted := false, exited := none,
                 usage_persisted := true })
      | some false =>
          (s1, { limit_recorded := some li, prompted := false, exited := some 0,
                 usage_persisted := false })
      | none =>
          if li.exit_at_limit then
            (s1, { limit_recorded := some li, prompted := false,
                   exited := some 0, usage_persisted := false })
          else
            let s2 := { s1 with cost_limit_user_decision_continue := some user_answer }
            if user_answer then
              (s2, { limit_recorded := some li, prompted := true, exited := none,
                     usage_persisted := true })
            else
              (s2, { limit_recorded := some li, prompted := true, exited := some 0,
                     usage_persisted := false })

/-- A sequence of usage events, each `(token_usage, duration)`, processed by
successive `_update_token_counts` calls (the prompt answer, when a prompt
occurs, is the fixed `user_answer`). -/
def run_events (cfg : Option LimitConfig) (user_answer : Bool)
    (events : List (TokenUsage × ℚ)) (s : HandlerState) : HandlerState :=
  events.foldl (fun st e => (update_token_counts cfg user_answer e.1 e.2 st).1) s

/-- `reset_session_totals`: zero the session cost, token counters and
duration while keeping the current session id; nothing else changes. -/
def reset_session_totals (s : HandlerState) : HandlerState :=
  { s with session_totals :=
      { cost := 0, tokens := 0, input_tokens := 0, output_tokens := 0
        session_id := s.session_totals.session_id, duration := 0 } }

/-- `reset_all_totals`: zero every counter, clear the remembered user
decision and the cost rates, re-run `_initialize_model_costs` for the current
model name, and re-fetch the session id from the session repository
(`new_session_id` is the lookup's result). -/
def reset_all_totals (litellm : Option (ℚ × ℚ)) (new_session_id : Option ℕ)
    (s : HandlerState) : HandlerState :=
  let s1 : HandlerState :=
    { s with
      total_tokens := 0
      prompt_tokens := 0
      completion_tokens := 0
      successful_requests := 0
      total_cost := 0
      session_totals :=
        { cost := 0, tokens := 0, input_tokens := 0, output_tokens := 0
          session_id := none, duration := 0 }
      cumulative_total_tokens := 0
      cumulative_prompt_tokens := 0
      cumulative_completion_tokens := 0
      input_cost_per_token := 0
      output_cost_per_token := 0
      tiered_costs := none
      cost_limit_user_decision_continue := none }
  let s2 := init_model_costs litellm s1
  { s2 with session_totals := { s2.session_totals with session_id := new_session_id } }

/-- The cost `_update_token_counts` adds for one usage event processed in
rate context `s` (the rate fields are the only fields of `s` it reads). -/
def call_cost (s : HandlerState) (tu : TokenUsage) : ℚ :=
  let p := (effective_counts tu).1
  let c := (effective_counts tu).2.1
  let rates := get_tiered_cost_rates s p
  (p : ℚ) * rates.1 + (c : ℚ) * rates.2

/-- No cost or token limit is configured. -/
def no_limits : Option LimitConfig → Prop
  | none => True
  | some c => c.max_cost = none ∧ c.max_tokens = none

/-- The cost limit is configured, strictly positive, and the session cost
has reached it. -/
def cost_breach_cond (c : LimitConfig) (st : SessionTotals) : Prop :=
  ∃ mc, c.max_cost = some mc ∧ 0 < mc ∧ mc ≤ st.cost

/-- The token limit is configured, strictly positive, and the session token
count has reached it. -/
def token_breach_cond (c : LimitConfig) (st : SessionTotals) : Prop :=
  ∃ mt, c.max_tokens = some mt ∧ 0 < mt ∧ mt ≤ (st.tokens : ℤ)

/-- A usage event whose reported total (when one is present alongside a
nonzero breakdown) agrees with the reported prompt + completion counts. -/
def consistent_usage (tu : TokenUsage) : Prop :=
  tu.total_tokens = none ∨
  (tu.prompt_tokens.getD 0 = 0 ∧ tu.completion_tokens.getD 0 = 0) ∨
  tu.total_tokens = some (tu.prompt_tokens.getD 0 + tu.completion_tokens.getD 0)

lemma check_limits_of_no_limits {cfg : Option LimitConfig} (h : no_limits cfg)
    (st : SessionTotals) : check_limits cfg st = none := by
  cases cfg with
  | none => rfl
  | some c =>
      obtain ⟨hc, ht⟩ := h
      simp [check_limits, cost_limit_check, token_limit_check, hc, ht]

lemma update_of_no_limits {cfg : Option LimitConfig} (h : no_limits cfg)
    (ua : Bool) (tu : TokenUsage) (d : ℚ) (s : HandlerState) :
    update_token_counts cfg ua tu d s =
      (accumulate tu d s,
       { limit_recorded := none, prompted := false, exited := none,
         usage_persisted := true }) := by
  simp only [update_token_counts]
  rw [check_limits_of_no_limits h]

lemma run_events_nil (cfg : Option LimitConfig) (ua : Bool) (s : HandlerState) :
    run_events cfg ua [] s = s := rfl

lemma run_events_cons (cfg : Option LimitConfig) (ua : Bool)
    (e : TokenUsage × ℚ) (es : List (TokenUsage × ℚ)) (s : HandlerState) :
    run_events cfg ua (e :: es) s =
      run_events cfg ua es (update_token_counts cfg ua e.1 e.2 s).1 := rfl

lemma accumulate_call_cost_eq (tu tu' : TokenUsage) (d : ℚ) (s : HandlerState) :
    call_cost (accumulate tu d s) tu' = call_cost s tu' := rfl

lemma update_state_cases (cfg : Option LimitConfig) (ua : Bool)
    (tu : TokenUsage) (d : ℚ) (s : HandlerState) :
    (update_token_counts cfg ua tu d s).1 = accumulate tu d s ∨
    (update_token_counts cfg ua tu d s).1 =
      { accumulate tu d s with cost_limit_user_decision_continue := some ua } := by
  simp only [update_token_counts]
  split
  · left; rfl
  · split
    · left; rfl
    · left; rfl
    · split
      · left; rfl
      · split
        · right; rfl
        · right; rfl

lemma check_limits_exit_flag {c : LimitConfig} {st : SessionTotals}
    {li : LimitInfo} (h : check_limits (some c) st = some li) :
    li.exit_at_limit = c.exit_at_limit := by
  simp only [check_limits] at h
  rcases h1 : cost_limit_check c st with _ | li1
  · simp only [h1, token_limit_check] at h
    rcases hmt : c.max_tokens with _ | mt
    · simp [hmt] at h
    · simp only [hmt] at h
      split at h
      · have h2 := Option.some.inj h
        subst h2
        rfl
      · simp at h
  · simp only [h1] at h
    have h2 := Option.some.inj h
    subst h2
    simp only [cost_limit_check] at h1
    rcases hmc : c.max_cost with _ | mc
    · simp [hmc] at h1
    · simp only [hmc] at h1
      split at h1
      · have h3 := Option.some.inj h1
        subst h3
        rfl
      · simp at h1

lemma update_breach_prior_true {cfg : Option LimitConfig} {tu : TokenUsage}
    {d : ℚ} {s : HandlerState} {li : LimitInfo} (ua : Bool)
    (hdec : s.cost_limit_user_decision_continue = some true)
    (hb : check_limits cfg (accumulate tu d s).session_totals = some li) :
    update_token_counts cfg ua tu d s =
      (accumulate tu d s,
       { limit_recorded := some li, prompted := false, exited := none,
         usage_persisted := true }) := by
  have hdec2 : (accumulate tu d s).cost_limit_user_decision_continue = some true := hdec
  simp [update_token_counts, hb, hdec2]

lemma update_breach_prior_false {cfg : Option LimitConfig} {tu : TokenUsage}
    {d : ℚ} {s : HandlerState} {li : LimitInfo} (ua : Bool)
    (hdec : s.cost_limit_user_decision_continue = some false)
    (hb : check_limits cfg (accumulate tu d s).session_totals = some li) :
    update_token_counts cfg ua tu d s =
      (accumulate tu d s,
       { limit_recorded := some li, prompted := false, exited := some 0,
         usage_persisted := false }) := by
  have hdec2 : (accumulate tu d s).cost_limit_user_decision_continue = some false := hdec
  simp [update_token_counts, hb, hdec2]

lemma update_breach_auto_exit {cfg : Option LimitConfig} {tu : TokenUsage}
    {d : ℚ} {s : HandlerState} {li : LimitInfo} (ua : Bool)
    (hdec : s.cost_limit_user_decision_continue = none)
    (hb : check_limits cfg (accumulate tu d s).session_totals = some li)
    (he : li.exit_at_limit = true) :
    update_token_counts cfg ua tu d s =
      (accumulate tu d s,
       { limit_recorded := some li, prompted := false, exited := some 0,
         usage_persisted := false }) := by
  have hdec2 : (accumulate tu d s).cost_limit_user_decision_continue = none := hdec
  simp [update_token_counts, hb, hdec2, he]

lemma update_breach_prompt_continue {cfg : Option LimitConfig} {tu : TokenUsage}
    {d : ℚ} {s : HandlerState} {li : LimitInfo}
    (hdec : s.cost_limit_user_decision_continue = none)
    (hb : check_limits cfg (accumulate tu d s).session_totals = some li)
    (he : li.exit_at_limit = false) :
    update_token_counts cfg true tu d s =
      ({ accumulate tu d s with cost_limit_user_decision_continue := some true },
       { limit_recorded := some li, prompted := true, exited := none,
         usage_persisted := true }) := by
  have hdec2 : (accumulate tu d s).cost_limit_user_decision_continue = none := hdec
  simp [update_token_counts, hb, hdec2, he]

lemma update_breach_prompt_decline {cfg : Option LimitConfig} {tu : TokenUsage}
    {d : ℚ} {s : HandlerState} {li : LimitInfo}
    (hdec : s.cost_limit_user_decision_continue = none)
    (hb : check_limits cfg (accumulate tu d s).session_totals = some li)
    (he : li.exit_at_limit = false) :
    update_token_counts cfg false tu d s =
      ({ accumulate tu d s with cost_limit_user_decision_continue := some false },
       { limit_recorded := some li, prompted := true, exited := some 0,
         usage_persisted := false }) := by
  have hdec2 : (accumulate tu d s).cost_limit_user_decision_continue = none := hdec
  simp [update_token_counts, hb, hdec2, he]

lemma cost_check_isSome_iff (c : LimitConfig) (st : SessionTotals) :
    (cost_limit_check c st).isSome ↔ cost_breach_cond c st := by
  unfold cost_limit_check cost_breach_cond
  rcases hmc : c.max_cost with _ | mc
  · simp
  · simp only []
    split_ifs with h
    · simp only [Option.isSome_some, true_iff]
      exact ⟨mc, rfl, h.1, h.2⟩
    · simp only [Option.isSome_none, Bool.false_eq_true, false_iff]
      rintro ⟨mc2, hmc2, h1, h2⟩
      obtain rfl := Option.some.inj hmc2
      exact h ⟨h1, h2⟩

lemma token_check_isSome_iff (c : LimitConfig) (st : SessionTotals) :
    (token_limit_check c st).isSome ↔ token_breach_cond c st := by
  unfold token_limit_check token_breach_cond
  rcases hmt : c.max_tokens with _ | mt
  · simp
  · simp only []
    split_ifs with h
    · simp only [Option.isSome_some, true_iff]
      exact ⟨mt, rfl, h.1, h.2⟩
    · simp only [Option.isSome_none, Bool.false_eq_true, false_iff]
      rintro ⟨mt2, hmt2, h1, h2⟩
      obtain rfl := Option.some.inj hmt2
      exact h ⟨h1, h2⟩

lemma check_limits_isSome_iff (c : LimitConfig) (st : SessionTotals) :
    (check_limits (some c) st).isSome ↔
      cost_breach_cond c st ∨ token_breach_cond c st := by
  unfold check_limits
  rcases h1 : cost_limit_check c st with _ | li1
  · have hc := cost_check_isSome_iff c st
    rw [h1] at hc
    simp only [Option.isSome_none, Bool.false_eq_true, false_iff] at hc
    simp only [h1, token_check_isSome_iff c st]
    tauto
  · have hc := cost_check_isSome_iff c st
    rw [h1] at hc
    simp only [Option.isSome_some, true_iff] at hc
    simp only [h1, Option.isSome_some, true_iff]
    tauto

lemma update_session_totals_eq (cfg : Option LimitConfig) (ua : Bool)
    (tu : TokenUsage) (d : ℚ) (s : HandlerState) :
    ((update_token_counts cfg ua tu d s).1).session_totals =
      (accumulate tu d s).session_totals := by
  obtain h | h := update_state_cases cfg ua tu d s <;> rw [h]

lemma update_counters (cfg : Option LimitConfig) (ua : Bool) (tu : TokenUsage)
    (d : ℚ) (s : HandlerState) :
    (update_token_counts cfg ua tu d s).1.cumulative_total_tokens =
        s.cumulative_total_tokens + (effective_counts tu).2.2 ∧
    (update_token_counts cfg ua tu d s).1.cumulative_prompt_tokens =
        s.cumulative_prompt_tokens + (effective_counts tu).1 ∧
    (update_token_counts cfg ua tu d s).1.cumulative_completion_tokens =
        s.cumulative_completion_tokens + (effective_counts tu).2.1 ∧
    (update_token_counts cfg ua tu d s).1.total_cost =
        s.total_cost + call_cost s tu ∧
    (update_token_counts cfg ua tu d s).1.successful_requests =
        s.successful_requests + 1 ∧
    (update_token_counts cfg ua tu d s).1.session_totals.cost =
        s.session_totals.cost + call_cost s tu ∧
    (update_token_counts cfg ua tu d s).1.session_totals.tokens =
        s.session_totals.tokens + (effective_counts tu).2.2 ∧
    (update_token_counts cfg ua tu d s).1.session_totals.input_tokens =
        s.session_totals.input_tokens + (effective_counts tu).1 ∧
    (update_token_counts cfg ua tu d s).1.session_totals.output_tokens =
        s.session_totals.output_tokens + (effective_counts tu).2.1 ∧
    (update_token_counts cfg ua tu d s).1.session_totals.duration =
        s.session_totals.duration + d := by
  obtain h | h := update_state_cases cfg ua tu d s <;> rw [h] <;>
    exact ⟨rfl, rfl, rfl, rfl, rfl, rfl, rfl, rfl, rfl, rfl⟩

lemma update_rates_eq (cfg : Option LimitConfig) (ua : Bool) (tu : TokenUsage)
    (d : ℚ) (s : HandlerState) :
    (update_token_counts cfg ua tu d s).1.input_cost_per_token =
        s.input_cost_per_token ∧
    (update_token_counts cfg ua tu d s).1.output_cost_per_token =
        s.output_cost_per_token ∧
    (update_token_counts cfg ua tu d s).1.tiered_costs = s.tiered_costs := by
  obtain h | h := update_state_cases cfg ua tu d s <;> rw [h] <;>
    exact ⟨rfl, rfl, rfl⟩

lemma update_last_call (cfg : Option LimitConfig) (ua : Bool)
    (tu : TokenUsage) (d : ℚ) (s : HandlerState) :
    (update_token_counts cfg ua tu d s).1.prompt_tokens =
        (effective_counts tu).1 ∧
    (update_token_counts cfg ua tu d s).1.completion_tokens =
        (effective_counts tu).2.1 ∧
    (update_token_counts cfg ua tu d s).1.total_tokens =
        (effective_counts tu).2.2 := by
  obtain h | h := update_state_cases cfg ua tu d s <;> rw [h] <;>
    exact ⟨rfl, rfl, rfl⟩

lemma update_no_breach {cfg : Option LimitConfig} {tu : TokenUsage} {d : ℚ}
    {s : HandlerState} (ua : Bool)
    (hb : check_limits cfg (accumulate tu d s).session_totals = none) :
    update_token_counts cfg ua tu d s =
      (accumulate tu d s,
       { limit_recorded := none, prompted := false, exited := none,
         usage_persisted := true }) := by
  simp only [update_token_counts]
  rw [hb]

lemma limit_recorded_eq (cfg : Option LimitConfig) (ua : Bool)
    (tu : TokenUsage) (d : ℚ) (s : HandlerState) :
    (update_token_counts cfg ua tu d s).2.limit_recorded =
      check_limits cfg (accumulate tu d s).session_totals := by
  rcases hb : check_limits cfg (accumulate tu d s).session_totals with _ | li
  · rw [update_no_breach ua hb]
  · rcases hd : s.cost_limit_user_decision_continue with _ | b
    · rcases he : li.exit_at_limit with _ | _
      · cases ua with
        | true => rw [update_breach_prompt_continue hd hb he]
        | false => rw [update_breach_prompt_decline hd hb he]
      · rw [update_breach_auto_exit ua hd hb he]
    · cases b with
      | true => rw [update_breach_prior_true ua hd hb]
      | false => rw [update_breach_prior_false ua hd hb]

lemma check_limits_cost_first {c : LimitConfig} {st : SessionTotals} {mc : ℚ}
    (hm : c.max_cost = some mc) (h0 : 0 < mc) (hge : mc ≤ st.cost) :
    check_limits (some c) st =
      some { limit_type := .cost, current_value := st.cost, limit_value := mc,
             exit_at_limit := c.exit_at_limit } := by
  unfold check_limits cost_limit_check
  simp [hm, h0, hge]

lemma check_limits_type_sound {c : LimitConfig} {st : SessionTotals}
    {li : LimitInfo} (h : check_limits (some c) st = some li) :
    (li.limit_type = LimitType.cost → cost_breach_cond c st) ∧
    (li.limit_type = LimitType.tokens → token_breach_cond c st) := by
  simp only [check_limits] at h
  rcases h1 : cost_limit_check c st with _ | li1
  · simp only [h1, token_limit_check] at h
    rcases hmt : c.max_tokens with _ | mt
    · simp [hmt] at h
    · simp only [hmt] at h
      split at h
      case isTrue hcond =>
          obtain rfl := Option.some.inj h
          exact ⟨fun hh => absurd hh (by simp),
                 fun _ => ⟨mt, hmt, hcond.1, hcond.2⟩⟩
      case isFalse => simp at h
  · simp only [h1] at h
    obtain rfl := Option.some.inj h
    simp only [cost_limit_check] at h1
    rcases hmc : c.max_cost with _ | mc
    · simp [hmc] at h1
    · simp only [hmc] at h1
      split at h1
      case isTrue hcond =>
          obtain rfl := Option.some.inj h1
          exact ⟨fun _ => ⟨mc, hmc, hcond.1, hcond.2⟩,
                 fun hh => absurd hh (by simp)⟩
      case isFalse => simp at h1

/-- The `(input_rate, output_rate, tiered_costs)` triple
`_initialize_model_costs` resolves, as a function of the pricing-lookup
result, the model name, and the pre-existing tiered record (only the
lookup-success branch leaves the tiered record untouched). -/
def fallback_of (name : String) : ℚ × ℚ × Option TieredCosts :=
  match MODEL_COSTS name with
  | some (.tiered tc) => (tc.input_under_200k, tc.output_under_200k, some tc)
  | some (.flat i o) => (i, o, none)
  | none => (0, 0, none)

/-- Rate resolution of `_initialize_model_costs` as a pure function. -/
def resolved_rates (litellm : Option (ℚ × ℚ)) (name : String)
    (t0 : Option TieredCosts) : ℚ × ℚ × Option TieredCosts :=
  match litellm with
  | some (ic, oc) => if ic ≠ 0 ∧ oc ≠ 0 then (ic, oc, t0) else fallback_of name
  | none => fallback_of name

lemma init_model_costs_eq (litellm : Option (ℚ × ℚ)) (a : HandlerState) :
    init_model_costs litellm a =
      { a with
        input_cost_per_token := (resolved_rates litellm a.model_name a.tiered_costs).1
        output_cost_per_token := (resolved_rates litellm a.model_name a.tiered_costs).2.1
        tiered_costs := (resolved_rates litellm a.model_name a.tiered_costs).2.2 } := by
  cases litellm with
  | none =>
      unfold init_model_costs fallback_model_costs resolved_rates fallback_of
      rcases hm : MODEL_COSTS a.model_name with _ | (⟨i, o⟩ | tc) <;> simp [hm]
  | some p =>
      obtain ⟨ic, oc⟩ := p
      by_cases hne : ic ≠ 0 ∧ oc ≠ 0
      · simp [init_model_costs, resolved_rates, hne]
      · simp only [init_model_costs, resolved_rates, hne, if_false]
        unfold fallback_model_costs fallback_of
        rcases hm : MODEL_COSTS a.model_name with _ | (⟨i, o⟩ | tc) <;> simp [hm]

lemma effective_total_split {tu : TokenUsage} (h : consistent_usage tu) :
    (effective_counts tu).2.2 =
      (effective_counts tu).1 + (effective_counts tu).2.1 := by
  unfold effective_counts
  by_cases hc :
      0 < tu.total_tokens.getD (tu.prompt_tokens.getD 0 + tu.completion_tokens.getD 0) ∧
        tu.prompt_tokens.getD 0 = 0 ∧ tu.completion_tokens.getD 0 = 0
  · rw [if_pos hc]
    dsimp only
    omega
  · rw [if_neg hc]
    dsimp only
    rcases h with h | ⟨hp, hc0⟩ | h
    · simp [h]
    · rw [hp, hc0] at hc ⊢
      have ht0 : tu.total_tokens.getD (0 + 0) = 0 := by
        by_contra hne
        exact hc ⟨Nat.pos_of_ne_zero hne, rfl, rfl⟩
      rw [ht0]
    · simp [h]

/-- C1: with no limits configured, after any sequence of recorded usage
events the handler's `cumulative_total_tokens` has grown by the sum of the
events' effective total-token counts and `total_cost` by the exact sum of
each event's prompt × input-rate + completion × output-rate; in particular,
for `claude-3-7-sonnet-20250219`, one call with 1000 prompt and 500
completion tokens yields `total_cost` exactly 0.0105 and one successful
request. -/
theorem claim_C1 :
    (∀ (cfg : Option LimitConfig) (ua : Bool) (events : List (TokenUsage × ℚ))
        (s : HandlerState), no_limits cfg →
        (run_events cfg ua events s).cumulative_total_tokens =
            s.cumulative_total_tokens +
              (events.map (fun e => (effective_counts e.1).2.2)).sum ∧
          (run_events cfg ua events s).total_cost =
            s.total_cost + (events.map (fun e => call_cost s e.1)).sum) ∧
      (run_events none true [(⟨some 1000, some 500, none⟩, 0)]
          (make_handler "claude-3-7-sonnet-20250219" none none)).total_cost =
        0.0105 ∧
      (run_events none true [(⟨some 1000, some 500, none⟩, 0)]
            (make_handler "claude-3-7-sonnet-20250219" none none)).successful_requests =
        1 := by
  refine ⟨?_, ?_, ?_⟩
  · intro cfg ua events
    induction events with
    | nil => intro s _; simp [run_events_nil]
    | cons e es ih =>
        intro s hcfg
        rw [run_events_cons, update_of_no_limits hcfg]
        dsimp only
        obtain ⟨h1, h2⟩ := ih (accumulate e.1 e.2 s) hcfg
        constructor
        · rw [h1]
          have hx : (accumulate e.1 e.2 s).cumulative_total_tokens =
              s.cumulative_total_tokens + (effective_counts e.1).2.2 := rfl
          rw [hx, List.map_cons, List.sum_cons]
          omega
        · rw [h2]
          have hx : (accumulate e.1 e.2 s).total_cost =
              s.total_cost + call_cost s e.1 := rfl
          rw [hx, List.map_cons, List.sum_cons]
          simp only [accumulate_call_cost_eq]
          ring
  · norm_num [run_events, update_token_counts, accumulate, check_limits,
      cost_limit_check, token_limit_check, effective_counts,
      get_tiered_cost_rates, make_handler, init_model_costs,
      fallback_model_costs, initial_state, MODEL_COSTS]
  · norm_num [run_events, update_token_counts, accumulate, check_limits,
      cost_limit_check, token_limit_check, effective_counts,
      get_tiered_cost_rates, make_handler, init_model_costs,
      fallback_model_costs, initial_state, MODEL_COSTS]

/-- Witness for C1: the universal part applied to one concrete event
sequence on a zero-rate handler. -/
theorem claim_C1_witness :
    (run_events none false [(⟨some 10, some 20, none⟩, 1)]
        (initial_state "unknown-model" none)).cumulative_total_tokens =
      30 ∧
    (run_events none false [(⟨some 10, some 20, none⟩, 1)]
        (initial_state "unknown-model" none)).total_cost = 0 := by
  have h := claim_C1.1 none false [(⟨some 10, some 20, none⟩, 1)]
    (initial_state "unknown-model" none) trivial
  constructor
  · rw [h.1]
    norm_num [effective_counts, initial_state]
  · rw [h.2]
    norm_num [call_cost, effective_counts, get_tiered_cost_rates, initial_state]

/-- C2: for a model with tiered costs, a call whose prompt-token count is at
most the threshold is priced with the under-tier rate pair and one strictly
above it with the over-tier pair; at threshold 200000, 200000 prompt tokens
select the under rates and 200001 the over rates. -/
theorem claim_C2 :
    (∀ (s : HandlerState) (tc : TieredCosts) (p : ℕ), s.tiered_costs = some tc →
        (p ≤ tc.tier_threshold →
          get_tiered_cost_rates s p = (tc.input_under_200k, tc.output_under_200k)) ∧
        (tc.tier_threshold < p →
          get_tiered_cost_rates s p = (tc.input_over_200k, tc.output_over_200k))) ∧
      get_tiered_cost_rates (make_handler "gemini-2.5-pro-exp-03-25" none none)
          200000 =
        (0.00000125, 0.00001000) ∧
      get_tiered_cost_rates (make_handler "gemini-2.5-pro-exp-03-25" none none)
          200001 =
        (0.00000250, 0.00001500) := by
  refine ⟨?_, ?_, ?_⟩
  · intro s tc p h
    unfold get_tiered_cost_rates
    simp only [h]
    constructor
    · intro hle
      rw [if_neg (by omega)]
    · intro hlt
      rw [if_pos hlt]
  · norm_num [get_tiered_cost_rates, make_handler, init_model_costs,
      fallback_model_costs, initial_state, MODEL_COSTS, geminiTiered]
  · norm_num [get_tiered_cost_rates, make_handler, init_model_costs,
      fallback_model_costs, initial_state, MODEL_COSTS, geminiTiered]

/-- Witness for C2: the universal part applied to a concrete tiered handler
and prompt count. -/
theorem claim_C2_witness :
    get_tiered_cost_rates (make_handler "gemini-2.5-pro-exp-03-25" none none)
        100 =
      (0.00000125, 0.00001000) := by
  have h := (claim_C2.1 (make_handler "gemini-2.5-pro-exp-03-25" none none)
    geminiTiered 100 rfl).1 (by norm_num [geminiTiered])
  simpa [geminiTiered] using h

/-- C3: an event reporting a positive total with zero prompt and completion
counts is split 90/10 (prompt = ⌊total × 0.9⌋, completion = remainder)
before accumulation — total 1500 gives 1350/150 — while an event reporting a
nonzero prompt or completion count is accumulated as reported. -/
theorem claim_C3 :
    (∀ tu : TokenUsage, tu.prompt_tokens.getD 0 = 0 →
        tu.completion_tokens.getD 0 = 0 → 0 < tu.total_tokens.getD 0 →
        effective_counts tu =
          (tu.total_tokens.getD 0 * 9 / 10,
           tu.total_tokens.getD 0 - tu.total_tokens.getD 0 * 9 / 10,
           tu.total_tokens.getD 0)) ∧
      (∀ tu : TokenUsage,
        tu.prompt_tokens.getD 0 ≠ 0 ∨ tu.completion_tokens.getD 0 ≠ 0 →
        effective_counts tu =
          (tu.prompt_tokens.getD 0, tu.completion_tokens.getD 0,
           tu.total_tokens.getD
             (tu.prompt_tokens.getD 0 + tu.completion_tokens.getD 0))) ∧
      effective_counts ⟨none, none, some 1500⟩ = (1350, 150, 1500) := by
  refine ⟨?_, ?_, by decide⟩
  · intro tu hp hc ht
    unfold effective_counts
    rw [hp, hc]
    rw [if_pos ⟨ht, rfl, rfl⟩]
  · intro tu h
    unfold effective_counts
    rw [if_neg ?_]
    rintro ⟨_, hp2, hc2⟩
    rcases h with h | h
    · exact h hp2
    · exact h hc2

/-- Witness for C3: the derivation branch applied to a concrete totals-only
event. -/
theorem claim_C3_witness :
    effective_counts ⟨none, none, some 1000⟩ = (900, 100, 1000) := by
  have h := claim_C3.1 ⟨none, none, some 1000⟩ rfl rfl (by decide)
  simpa using h

/-- C4: the limit check reports a breach exactly when some limit is
configured, strictly positive, and met or exceeded by the session value
(equality included); limits configured as zero or negative are disabled and
never trigger. -/
theorem claim_C4 :
    (∀ (c : LimitConfig) (st : SessionTotals),
        (check_limits (some c) st).isSome ↔
          cost_breach_cond c st ∨ token_breach_cond c st) ∧
      (∀ (st : SessionTotals) (mc : ℚ) (mt : ℤ) (b : Bool), mc ≤ 0 → mt ≤ 0 →
        check_limits
            (some { max_cost := some mc, max_tokens := some mt,
                    exit_at_limit := b }) st =
          none) := by
  refine ⟨check_limits_isSome_iff, ?_⟩
  intro st mc mt b hmc hmt
  have h1 : ¬(0 < mc ∧ mc ≤ st.cost) := fun hh => absurd hh.1 (not_lt.mpr hmc)
  have h2 : ¬(0 < mt ∧ mt ≤ (st.tokens : ℤ)) := fun hh =>
    absurd hh.1 (not_lt.mpr hmt)
  simp [check_limits, cost_limit_check, token_limit_check, h1, h2]

/-- Witness for C4: zero-configured limits report no breach even with
positive session totals. -/
theorem claim_C4_witness :
    check_limits
        (some { max_cost := some 0, max_tokens := some 0,
                exit_at_limit := false })
        { cost := 5, tokens := 100, input_tokens := 60, output_tokens := 40,
          session_id := none, duration := 0 } =
      none :=
  claim_C4.2
    { cost := 5, tokens := 100, input_tokens := 60, output_tokens := 40,
      session_id := none, duration := 0 } 0 0 false le_rfl le_rfl

/-- C5: when the cost limit and the token limit are both breached, the limit
check reports exactly the cost breach (cost is evaluated first and the
result carries a single breach). -/
theorem claim_C5 (c : LimitConfig) (st : SessionTotals) (mc : ℚ)
    (hm : c.max_cost = some mc) (h0 : 0 < mc) (hge : mc ≤ st.cost)
    (htok : token_breach_cond c st) :
    check_limits (some c) st =
      some { limit_type := .cost, current_value := st.cost, limit_value := mc,
             exit_at_limit := c.exit_at_limit } :=
  check_limits_cost_first hm h0 hge

/-- Witness for C5: both limits breached on concrete totals; the cost breach
is the one reported. -/
theorem claim_C5_witness :
    check_limits
        (some { max_cost := some 0.01, max_tokens := some 1000,
                exit_at_limit := false })
        { cost := 0.02, tokens := 1500, input_tokens := 1000,
          output_tokens := 500, session_id := none, duration := 0 } =
      some { limit_type := .cost, current_value := 0.02, limit_value := 0.01,
             exit_at_limit := false } :=
  claim_C5
    { max_cost := some 0.01, max_tokens := some 1000, exit_at_limit := false }
    { cost := 0.02, tokens := 1500, input_tokens := 1000, output_tokens := 500,
      session_id := none, duration := 0 }
    0.01 rfl (by norm_num) (by norm_num)
    ⟨1000, rfl, by norm_num, by norm_num⟩

/-- C6: on a breach with `exit_at_limit` configured and no prior user
decision, the step exits with code 0 without ever prompting, and the breach
is recorded as a `limit_reached` event carrying the limit type, current
value, limit value and the `exit_at_limit` flag. -/
theorem claim_C6 (cfg : LimitConfig) (ua : Bool) (tu : TokenUsage) (d : ℚ)
    (s : HandlerState) (li : LimitInfo)
    (hdec : s.cost_limit_user_decision_continue = none)
    (hexit : cfg.exit_at_limit = true)
    (hb : check_limits (some cfg) (accumulate tu d s).session_totals = some li) :
    (update_token_counts (some cfg) ua tu d s).2.exited = some 0 ∧
    (update_token_counts (some cfg) ua tu d s).2.prompted = false ∧
    (update_token_counts (some cfg) ua tu d s).2.limit_recorded = some li ∧
    li.exit_at_limit = true := by
  have he : li.exit_at_limit = true := (check_limits_exit_flag hb).trans hexit
  rw [update_breach_auto_exit ua hdec hb he]
  exact ⟨rfl, rfl, rfl, he⟩

/-- Witness for C6: a fresh claude handler, cost limit 0.01, auto-exit on; a
1000/500 call breaches and the step auto-exits without prompting. -/
theorem claim_C6_witness :
    (update_token_counts
        (some { max_cost := some 0.01, max_tokens := none,
                exit_at_limit := true })
        false ⟨some 1000, some 500, none⟩ 0
        (make_handler "claude-3-7-sonnet-20250219" none none)).2.exited =
      some 0 ∧
    (update_token_counts
        (some { max_cost := some 0.01, max_tokens := none,
                exit_at_limit := true })
        false ⟨some 1000, some 500, none⟩ 0
        (make_handler "claude-3-7-sonnet-20250219" none none)).2.prompted =
      false ∧
    (update_token_counts
        (some { max_cost := some 0.01, max_tokens := none,
                exit_at_limit := true })
        false ⟨some 1000, some 500, none⟩ 0
        (make_handler "claude-3-7-sonnet-20250219" none none)).2.limit_recorded =
      some { limit_type := .cost, current_value := 0.0105, limit_value := 0.01,
             exit_at_limit := true } ∧
    ({ limit_type := .cost, current_value := 0.0105, limit_value := 0.01,
       exit_at_limit := true } : LimitInfo).exit_at_limit = true :=
  claim_C6
    { max_cost := some 0.01, max_tokens := none, exit_at_limit := true }
    false ⟨some 1000, some 500, none⟩ 0
    (make_handler "claude-3-7-sonnet-20250219" none none)
    { limit_type := .cost, current_value := 0.0105, limit_value := 0.01,
      exit_at_limit := true }
    rfl rfl
    (by norm_num [accumulate, effective_counts, get_tiered_cost_rates,
      make_handler, init_model_costs, fallback_model_costs, initial_state,
      MODEL_COSTS, check_limits, cost_limit_check])

/-- C7: on a breach with `exit_at_limit` off and no prior decision the step
prompts and remembers the answer — decline exits with code 0 without
persisting the usage record, accept persists it; a remembered `true`
decision auto-continues every later breach without prompting, a remembered
`false` decision auto-exits without prompting. -/
theorem claim_C7 :
    (∀ (cfg : LimitConfig) (ua : Bool) (tu : TokenUsage) (d : ℚ)
        (s : HandlerState) (li : LimitInfo),
      s.cost_limit_user_decision_continue = none →
      check_limits (some cfg) (accumulate tu d s).session_totals = some li →
      cfg.exit_at_limit = false →
        (update_token_counts (some cfg) ua tu d s).2.prompted = true ∧
        ((update_token_counts (some cfg) ua tu d s).1).cost_limit_user_decision_continue =
          some ua ∧
        (ua = false →
          (update_token_counts (some cfg) ua tu d s).2.exited = some 0 ∧
          (update_token_counts (some cfg) ua tu d s).2.usage_persisted = false) ∧
        (ua = true →
          (update_token_counts (some cfg) ua tu d s).2.usage_persisted = true ∧
          (update_token_counts (some cfg) ua tu d s).2.exited = none)) ∧
    (∀ (cfg : Option LimitConfig) (ua : Bool) (tu : TokenUsage) (d : ℚ)
        (s : HandlerState) (li : LimitInfo),
      s.cost_limit_user_decision_continue = some true →
      check_limits cfg (accumulate tu d s).session_totals = some li →
        (update_token_counts cfg ua tu d s).2.prompted = false ∧
        (update_token_counts cfg ua tu d s).2.exited = none ∧
        (update_token_counts cfg ua tu d s).2.usage_persisted = true) ∧
    (∀ (cfg : Option LimitConfig) (ua : Bool) (tu : TokenUsage) (d : ℚ)
        (s : HandlerState) (li : LimitInfo),
      s.cost_limit_user_decision_continue = some false →
      check_limits cfg (accumulate tu d s).session_totals = some li →
        (update_token_counts cfg ua tu d s).2.prompted = false ∧
        (update_token_counts cfg ua tu d s).2.exited = some 0 ∧
        (update_token_counts cfg ua tu d s).2.usage_persisted = false) := by
  refine ⟨?_, ?_, ?_⟩
  · intro cfg ua tu d s li hdec hb hexit
    have he : li.exit_at_limit = false := (check_limits_exit_flag hb).trans hexit
    cases ua with
    | true =>
        rw [update_breach_prompt_continue hdec hb he]
        exact ⟨rfl, rfl, fun h => Bool.noConfusion h, fun _ => ⟨rfl, rfl⟩⟩
    | false =>
        rw [update_breach_prompt_decline hdec hb he]
        exact ⟨rfl, rfl, fun _ => ⟨rfl, rfl⟩, fun h => Bool.noConfusion h⟩
  · intro cfg ua tu d s li hdec hb
    rw [update_breach_prior_true ua hdec hb]
    exact ⟨rfl, rfl, rfl⟩
  · intro cfg ua tu d s li hdec hb
    rw [update_breach_prior_false ua hdec hb]
    exact ⟨rfl, rfl, rfl⟩

/-- Witness for C7: breach with prompting enabled and the user declining —
the step prompts, exits with code 0 and does not persist the usage record. -/
theorem claim_C7_witness :
    (update_token_counts
        (some { max_cost := some 0.01, max_tokens := none,
                exit_at_limit := false })
        false ⟨some 1000, some 500, none⟩ 0
        (make_handler "claude-3-7-sonnet-20250219" none none)).2.prompted =
      true := by
  have h := (claim_C7.1
    { max_cost := some 0.01, max_tokens := none, exit_at_limit := false }
    false ⟨some 1000, some 500, none⟩ 0
    (make_handler "claude-3-7-sonnet-20250219" none none)
    { limit_type := .cost, current_value := 0.0105, limit_value := 0.01,
      exit_at_limit := false }
    rfl
    (by norm_num [accumulate, effective_counts, get_tiered_cost_rates,
      make_handler, init_model_costs, fallback_model_costs, initial_state,
      MODEL_COSTS, check_limits, cost_limit_check])
    rfl)
  exact h.1

/-- C8 counterexample: an event reporting prompt=1, completion=1 and an
inconsistent explicit total=3 is accumulated verbatim, leaving the session
totals with `tokens = 3` but `input_tokens + output_tokens = 2`, so the
claimed invariant fails for a sequence accumulated through the subsystem. -/
theorem claim_C8_counterexample :
    ¬((run_events none true [(⟨some 1, some 1, some 3⟩, 0)]
          (make_handler "claude-3-7-sonnet-20250219" none none)).session_totals.tokens =
        (run_events none true [(⟨some 1, some 1, some 3⟩, 0)]
            (make_handler "claude-3-7-sonnet-20250219" none none)).session_totals.input_tokens +
          (run_events none true [(⟨some 1, some 1, some 3⟩, 0)]
              (make_handler "claude-3-7-sonnet-20250219" none none)).session_totals.output_tokens) := by
  norm_num [run_events, update_token_counts, accumulate, check_limits,
    cost_limit_check, token_limit_check, effective_counts,
    get_tiered_cost_rates, make_handler, init_model_costs,
    fallback_model_costs, initial_state, MODEL_COSTS]

/-- C8 (amended): `tokens = input_tokens + output_tokens` holds after every
sequence of usage events in which each event either reports no explicit
total, reports only a total (so the 90/10 derivation applies), or reports a
total equal to its reported prompt + completion. -/
theorem claim_C8_amended :
    ∀ (cfg : Option LimitConfig) (ua : Bool) (events : List (TokenUsage × ℚ))
      (s : HandlerState),
      (∀ e ∈ events, consistent_usage e.1) →
      s.session_totals.tokens =
        s.session_totals.input_tokens + s.session_totals.output_tokens →
      (run_events cfg ua events s).session_totals.tokens =
        (run_events cfg ua events s).session_totals.input_tokens +
          (run_events cfg ua events s).session_totals.output_tokens := by
  intro cfg ua events
  induction events with
  | nil => intro s _ hinv; simpa [run_events_nil] using hinv
  | cons e es ih =>
      intro s hcons hinv
      rw [run_events_cons]
      refine ih _ (fun x hx => hcons x (List.mem_cons_of_mem e hx)) ?_
      rw [update_session_totals_eq]
      have ht := effective_total_split (hcons e (List.mem_cons_self e es))
      have h1 : (accumulate e.1 e.2 s).session_totals.tokens =
          s.session_totals.tokens + (effective_counts e.1).2.2 := rfl
      have h2 : (accumulate e.1 e.2 s).session_totals.input_tokens =
          s.session_totals.input_tokens + (effective_counts e.1).1 := rfl
      have h3 : (accumulate e.1 e.2 s).session_totals.output_tokens =
          s.session_totals.output_tokens + (effective_counts e.1).2.1 := rfl
      rw [h1, h2, h3]
      omega

/-- Witness for C8 (amended): a consistent event sequence preserves the
invariant from a fresh state. -/
theorem claim_C8_amended_witness :
    (run_events none true [(⟨some 10, some 5, none⟩, 0)]
        (initial_state "unknown-model" none)).session_totals.tokens =
      (run_events none true [(⟨some 10, some 5, none⟩, 0)]
          (initial_state "unknown-model" none)).session_totals.input_tokens +
        (run_events none true [(⟨some 10, some 5, none⟩, 0)]
            (initial_state "unknown-model" none)).session_totals.output_tokens :=
  claim_C8_amended none true [(⟨some 10, some 5, none⟩, 0)]
    (initial_state "unknown-model" none)
    (by
      intro e he
      rw [List.mem_singleton] at he
      subst he
      exact Or.inl rfl)
    rfl

/-- C9: `reset_session_totals` zeroes the session cost, token counters and
duration, keeps the session id and changes nothing else;
`reset_all_totals` additionally zeroes all lifetime counters, clears the
remembered user decision, and re-resolves the cost rates for the current
model name — its result is exactly a freshly constructed handler for that
model. -/
theorem claim_C9 (s : HandlerState) (litellm : Option (ℚ × ℚ))
    (sid : Option ℕ) :
    (reset_session_totals s).session_totals =
      { cost := 0, tokens := 0, input_tokens := 0, output_tokens := 0,
        session_id := s.session_totals.session_id, duration := 0 } ∧
    (reset_session_totals s).cumulative_total_tokens = s.cumulative_total_tokens ∧
    (reset_session_totals s).cumulative_prompt_tokens = s.cumulative_prompt_tokens ∧
    (reset_session_totals s).cumulative_completion_tokens =
      s.cumulative_completion_tokens ∧
    (reset_session_totals s).total_tokens = s.total_tokens ∧
    (reset_session_totals s).prompt_tokens = s.prompt_tokens ∧
    (reset_session_totals s).completion_tokens = s.completion_tokens ∧
    (reset_session_totals s).total_cost = s.total_cost ∧
    (reset_session_totals s).successful_requests = s.successful_requests ∧
    (reset_session_totals s).cost_limit_user_decision_continue =
      s.cost_limit_user_decision_continue ∧
    (reset_session_totals s).input_cost_per_token = s.input_cost_per_token ∧
    (reset_session_totals s).output_cost_per_token = s.output_cost_per_token ∧
    (reset_session_totals s).tiered_costs = s.tiered_costs ∧
    (reset_session_totals s).model_name = s.model_name ∧
    reset_all_totals litellm sid s = make_handler s.model_name litellm sid := by
  refine ⟨rfl, rfl, rfl, rfl, rfl, rfl, rfl, rfl, rfl, rfl, rfl, rfl, rfl, rfl, ?_⟩
  simp only [reset_all_totals, make_handler, init_model_costs_eq, initial_state]

/-- C10: every `_update_token_counts` call grows the cumulative counters,
lifetime cost, request counter and session totals (including duration) by
the event's contribution before the limit check runs, on every path — the
recorded limit information is exactly the limit check of the already-updated
session totals, the last-call counters are overwritten with the event's
effective counts, and no exit or skipped persistence rolls the in-memory
totals back. -/
theorem claim_C10 (cfg : Option LimitConfig) (ua : Bool) (tu : TokenUsage)
    (d : ℚ) (s : HandlerState) :
    (update_token_counts cfg ua tu d s).1.prompt_tokens =
        (effective_counts tu).1 ∧
    (update_token_counts cfg ua tu d s).1.completion_tokens =
        (effective_counts tu).2.1 ∧
    (update_token_counts cfg ua tu d s).1.total_tokens =
        (effective_counts tu).2.2 ∧
    (update_token_counts cfg ua tu d s).1.cumulative_total_tokens =
        s.cumulative_total_tokens + (effective_counts tu).2.2 ∧
    (update_token_counts cfg ua tu d s).1.cumulative_prompt_tokens =
        s.cumulative_prompt_tokens + (effective_counts tu).1 ∧
    (update_token_counts cfg ua tu d s).1.cumulative_completion_tokens =
        s.cumulative_completion_tokens + (effective_counts tu).2.1 ∧
    (update_token_counts cfg ua tu d s).1.total_cost =
        s.total_cost + call_cost s tu ∧
    (update_token_counts cfg ua tu d s).1.successful_requests =
        s.successful_requests + 1 ∧
    (update_token_counts cfg ua tu d s).1.session_totals.cost =
        s.session_totals.cost + call_cost s tu ∧
    (update_token_counts cfg ua tu d s).1.session_totals.tokens =
        s.session_totals.tokens + (effective_counts tu).2.2 ∧
    (update_token_counts cfg ua tu d s).1.session_totals.input_tokens =
        s.session_totals.input_tokens + (effective_counts tu).1 ∧
    (update_token_counts cfg ua tu d s).1.session_totals.output_tokens =
        s.session_totals.output_tokens + (effective_counts tu).2.1 ∧
    (update_token_counts cfg ua tu d s).1.session_totals.duration =
        s.session_totals.duration + d ∧
    (update_token_counts cfg ua tu d s).2.limit_recorded =
        check_limits cfg (accumulate tu d s).session_totals := by
  obtain ⟨g1, g2, g3⟩ := update_last_call cfg ua tu d s
  obtain ⟨h1, h2, h3, h4, h5, h6, h7, h8, h9, h10⟩ := update_counters cfg ua tu d s
  exact ⟨g1, g2, g3, h1, h2, h3, h4, h5, h6, h7, h8, h9, h10,
    limit_recorded_eq cfg ua tu d s⟩

end RaAid
